import Mathlib

/-!
Verification of the snap_downloader merge pipeline (src/main.py).

The Python source is shallowly embedded: pure string/number functions become
Lean functions over `List Char` / `String` / `ℚ`; effectful code (subprocess
calls, the filesystem) is modelled by explicit state passing and boolean
oracles for the outcomes of the external calls, with Python exceptions as
`Except`.  Machine floats are modelled by exact rationals (the claims under
study compare parsed values symbolically, not float-rounded arithmetic).

The file is organised as: all definitions, then all theorems.
-/

namespace SnapDL

/-! ## Definitions -/

/-! ### Python string primitives -/

/-- Python `str.replace(pat, rep)` on character lists, for a nonempty
pattern: scan left to right; at each position, if `pat` is a prefix, emit
`rep` and skip `pat.length` characters, else copy one character.
(CPython semantics for a nonempty pattern; the empty pattern never occurs
in `src/main.py`.) -/
def replaceList (pat rep : List Char) : List Char → List Char
  | [] => []
  | c :: rest =>
    if pat.isPrefixOf (c :: rest) ∧ pat ≠ [] then
      rep ++ replaceList pat rep (rest.drop (pat.length - 1))
    else
      c :: replaceList pat rep rest
termination_by l => l.length
decreasing_by
  · simp only [List.length_drop, List.length_cons]
    omega
  · simp only [List.length_cons]
    omega

/-- Python `str.replace` on `String`. -/
def pyReplace (s pat rep : String) : String :=
  ⟨replaceList pat.data rep.data s.data⟩

/-- Python `needle in hay` for character lists: `pat` occurs as a
contiguous sublist. -/
def containsSub (pat : List Char) : List Char → Bool
  | [] => pat.isPrefixOf ([] : List Char)
  | c :: rest => pat.isPrefixOf (c :: rest) || containsSub pat rest

/-- ASCII lowercasing of a character list (Python `str.lower` on the ASCII
filenames and fields this program handles). -/
def lowerList (l : List Char) : List Char := l.map Char.toLower

/-- Python `str.lower` on `String` (ASCII). -/
def pyLower (s : String) : String := ⟨lowerList s.data⟩

/-- Python `needle in hay` on `String`. -/
def pyInStr (needle hay : String) : Bool := containsSub needle.data hay.data

/-- Python `str.endswith` on `String`. -/
def pyEndsWith (s suffix : String) : Bool := suffix.data.isSuffixOf s.data

/-! ### Overlay Repair (`FixOverlayImage`, src/main.py:219-225)

`FixOverlayImage` computes `overlay_path.replace(".png", "_fixed.png")`
and saves the re-decoded RGBA image to that path.  The only filesystem
write is at the returned path, so the input file is modified exactly when
the returned path equals the input path. -/

/-- The output path computed by `FixOverlayImage`:
`overlay_path.replace(".png", "_fixed.png")` (case-sensitive, as in the
source). -/
def fixOverlayImagePath (overlay_path : String) : String :=
  pyReplace overlay_path ".png" "_fixed.png"

/-- The overlay-acceptance test of `find_main_and_overlay`
(src/main.py:177): the lowercased file name ends with `"-overlay.png"`. -/
def isOverlayName (name : String) : Bool :=
  ("-overlay.png").data.isSuffixOf (lowerList name.data)

/-! ### Timestamp normalization and output rename (src/main.py:351,373) -/

/-- `nicetime`: `timestamp.replace(":", "-").replace(" UTC", "").replace(" ", "_")`. -/
def nicetime (timestamp : String) : String :=
  pyReplace (pyReplace (pyReplace timestamp ":" "-") " UTC" "") " " "_"

/-- The renamed output file name (src/main.py:373):
`f"{nicetime}_{p.name}"`. -/
def renamedOutputName (timestamp name : String) : String :=
  nicetime timestamp ++ "_" ++ name

/-! ### Location parsing (`parse_latlon`, src/main.py:46-53)

`parse_latlon` runs `re.search(r"(-?\d+\.\d+),\s*(-?\d+\.\d+)", s)` and
returns the two captured groups as floats.  The regex engine is embedded
directly for this one pattern: `re.search` tries the pattern at each
position left to right; within one position, greedy maximal-munch
matching of `\d+` is equivalent to full backtracking search, because a
digit can never stand where the following mandatory `.`/`,` is required.
Python floats are modelled by exact rationals. -/

/-- Python regex `\d` (ASCII digits, which is all this manifest data holds). -/
def isDig (c : Char) : Bool := '0' ≤ c && c ≤ '9'

/-- Python regex `\s`. -/
def isWs (c : Char) : Bool :=
  c = ' ' || c = '\t' || c = '\n' || c = '\r' || c = '\x0b' || c = '\x0c'

/-- Greedy `\d*`: the maximal digit prefix and the remainder. -/
def takeDigits : List Char → List Char × List Char
  | [] => ([], [])
  | c :: rest =>
    if isDig c then
      let p := takeDigits rest
      (c :: p.1, p.2)
    else ([], c :: rest)

/-- `\d+\.\d+` at the head of `l`: the matched text and the remainder. -/
def matchFloatCore (l : List Char) : Option (List Char × List Char) :=
  let p := takeDigits l
  if p.1 = [] then none
  else
    match p.2 with
    | '.' :: r2 =>
      let q := takeDigits r2
      if q.1 = [] then none else some (p.1 ++ '.' :: q.1, q.2)
    | _ => none

/-- `-?\d+\.\d+` at the head of `l` (a leading `-` not followed by a
digit fails both with and without the optional sign). -/
def matchFloat : List Char → Option (List Char × List Char)
  | '-' :: rest =>
    match matchFloatCore rest with
    | some (t, r) => some ('-' :: t, r)
    | none => none
  | l => matchFloatCore l

/-- Greedy `\s*`. -/
def dropWs : List Char → List Char
  | [] => []
  | c :: rest => if isWs c then dropWs rest else c :: rest

/-- The full pattern `(-?\d+\.\d+),\s*(-?\d+\.\d+)` anchored at the head
of `l`; returns the two group texts. -/
def matchPairAt (l : List Char) : Option (List Char × List Char) :=
  match matchFloat l with
  | none => none
  | some (g1, r1) =>
    match r1 with
    | ',' :: r2 =>
      match matchFloat (dropWs r2) with
      | none => none
      | some (g2, _) => some (g1, g2)
    | _ => none

/-- `re.search`: try the pattern at each position, left to right. -/
def searchPair : List Char → Option (List Char × List Char)
  | [] => none
  | c :: rest =>
    match matchPairAt (c :: rest) with
    | some g => some g
    | none => searchPair rest

/-- Decimal digit string to a natural number. -/
def digitsToNat (l : List Char) : Nat :=
  l.foldl (fun n c => 10 * n + (c.toNat - ('0').toNat)) 0

/-- Python `float()` on an unsigned `\d+\.\d+` literal, as an exact
rational. -/
def pyFloatPos (l : List Char) : ℚ :=
  let p := takeDigits l
  let q := takeDigits p.2.tail
  if p.2.head? = some '.' then
    (digitsToNat p.1 : ℚ) + (digitsToNat q.1 : ℚ) / (10 : ℚ) ^ q.1.length
  else (digitsToNat p.1 : ℚ)

/-- Python `float()` on a `-?\d+\.\d+` literal, as an exact rational. -/
def pyFloat (l : List Char) : ℚ :=
  if l.head? = some '-' then - pyFloatPos l.tail else pyFloatPos l

/-- `parse_latlon` (src/main.py:46-53): `(None, None)` for a falsy
(empty) string or when the pattern is absent, otherwise the two groups
of the regex search as floats. -/
def parse_latlon (location_str : String) : Option ℚ × Option ℚ :=
  if location_str.data = [] then (none, none)
  else
    match searchPair location_str.data with
    | some (g1, g2) => (some (pyFloat g1), some (pyFloat g2))
    | none => (none, none)

/-- The pattern exactly as claim C7 words it: a float (optional leading
`-`, at least one digit on each side of the decimal point), then a comma
immediately followed by a second such float, anchored at the head of `l`.
Maximal-munch matching coincides with the existence of such a split,
since a digit can never stand where the mandatory `.`/`,` is required. -/
def claimPairAt (l : List Char) : Bool :=
  match matchFloat l with
  | none => false
  | some (_, r1) =>
    match r1 with
    | ',' :: r2 => (matchFloat r2).isSome
    | _ => false

/-- Claim C7's "string containing a substring of the form
`<float>,<float>`": the claim's pattern matches at some position. -/
def claimHasPair (s : String) : Bool :=
  s.data.tails.any fun t => claimPairAt t

/-! ### DMS conversion (`deg_to_dms_rational`, src/main.py:55-60)

Arithmetic is modelled over exact rationals: `int()` is truncation toward
zero, Python 3 `round()` to an integer is round-half-to-even. -/

/-- Python `int()` on a rational: truncation toward zero. -/
def pyInt (q : ℚ) : ℤ := if 0 ≤ q then ⌊q⌋ else -⌊-q⌋

/-- Python 3 `round()` to an integer: nearest, halves to even. -/
def pyRound (q : ℚ) : ℤ :=
  if q - ⌊q⌋ < 1/2 then ⌊q⌋
  else if 1/2 < q - ⌊q⌋ then ⌊q⌋ + 1
  else if Even ⌊q⌋ then ⌊q⌋ else ⌊q⌋ + 1

/-- `deg_to_dms_rational` (src/main.py:55-60): degree/minute/second
rationals `((deg,1),(minutes,1),(seconds,100))` with seconds scaled by
100 and rounded. -/
def deg_to_dms_rational (deg_float : ℚ) : (ℤ × ℤ) × (ℤ × ℤ) × (ℤ × ℤ) :=
  let deg := pyInt |deg_float|
  let minutes_f := (|deg_float| - deg) * 60
  let minutes := pyInt minutes_f
  let seconds := pyRound ((minutes_f - minutes) * 60 * 100)
  ((deg, 1), (minutes, 1), (seconds, 100))

/-! ### Video Compositor retry loop (`ffmpeg_overlay_video`, src/main.py:188-217)

The loop `while x < AllowedAttemps` (with `AllowedAttemps = 3` and
`x = 0`) runs the ffmpeg compose command via `safe_run`; a successful run
`break`s, a failed one prints the error, repairs the overlay
(`overlay_png = FixOverlayImage(overlay_png)`) and loops.  In the source,
`x` is never incremented.  `runOk k ov` is the outcome oracle of the
`k`-th compose attempt on overlay path `ov`.  The loop is embedded with
explicit fuel: `none` means the loop has not exited within `fuel`
iterations; `some (attempts, produced)` means it exited after `attempts`
compose attempts, `produced` recording whether a run succeeded. -/

/-- The retry loop of `ffmpeg_overlay_video`, from counter `x` and
current overlay path `ov`, with `k` attempts already made. -/
def ffmpegOverlayVideoLoop (runOk : Nat → String → Bool) :
    Nat → Nat → String → Nat → Option (Nat × Bool)
  | 0, _, _, _ => none
  | fuel + 1, x, ov, k =>
    if x < 3 then
      if runOk k ov then some (k + 1, true)
      else ffmpegOverlayVideoLoop runOk fuel x (fixOverlayImagePath ov) (k + 1)
    else some (k, false)

/-- `ffmpeg_overlay_video`: the retry loop entered with `x = 0`. -/
def ffmpeg_overlay_video (runOk : Nat → String → Bool) (overlay_png : String)
    (fuel : Nat) : Option (Nat × Bool) :=
  ffmpegOverlayVideoLoop runOk fuel 0 overlay_png 0

/-! ### `process_zip_file` (src/main.py:228-257)

`process_zip_file` extracts the archive, locates main/overlay, then
deletes the archive (`os.remove(zip_path)`), and only then checks the
located payloads and composes.  `extractOk` is the outcome of
`extract_zip` (a raise propagates before `os.remove` is reached); `main`
and `overlay` are the payloads found by `find_main_and_overlay`;
`composeRaises` models the compose step raising (for the image branch
`overlay_image`, for the video branch an exception escaping
`ffmpeg_overlay_video`, e.g. from `FixOverlayImage`).  The result pairs
the Python outcome (`.ok none` = returned `None`, `.ok (some k)` = a
merged output of kind `k`, `.error` = an escaping exception) with whether
the archive file was deleted. -/

inductive MainKind
  | image
  | video
deriving DecidableEq, Repr

def process_zip_file (extractOk : Bool) (main : Option MainKind)
    (overlay : Bool) (composeRaises : Bool) :
    Except Unit (Option MainKind) × Bool :=
  if !extractOk then (.error (), false)
  else if main = none ∨ overlay = false then (.ok none, true)
  else if composeRaises then (.error (), true)
  else (.ok main, true)

/-! ### Timestamp parsing (`datetime.strptime(_, "%Y-%m-%d %H:%M:%S %Z")`)

A model of CPython `strptime` for this one fixed format (it is stdlib
code, a boundary primitive like ffmpeg/PIL): 4-digit year, literal
separators, 1-2 digit numeric fields with CPython's per-field ranges, a
mandatory space, and a timezone word matched case-insensitively against
the recognised abbreviations (`UTC`/`GMT`), which is then discarded
(naive datetime, as the spec notes).  Calendar day-of-month validation
is conservatively a constant 31 bound (no claim exercises Feb 30-style
inputs). -/

structure PyDateTime where
  year : Nat
  month : Nat
  day : Nat
  hour : Nat
  minute : Nat
  second : Nat
deriving DecidableEq, Repr

/-- A 1-2 digit numeric field within `[lo, hi]`, as CPython's `strptime`
field regexes accept. -/
def readNumUpTo2 (lo hi : Nat) (l : List Char) : Option (Nat × List Char) :=
  let p := takeDigits l
  if 1 ≤ p.1.length ∧ p.1.length ≤ 2 ∧ lo ≤ digitsToNat p.1 ∧ digitsToNat p.1 ≤ hi then
    some (digitsToNat p.1, p.2)
  else none

/-- A mandatory literal character. -/
def expectChar (c : Char) : List Char → Option (List Char)
  | [] => none
  | a :: rest => if a = c then some rest else none

def strptime_ymd_hms_z (s : String) : Option PyDateTime :=
  let py := takeDigits s.data
  if py.1.length ≠ 4 then none
  else
    match expectChar '-' py.2 with
    | none => none
    | some r1 =>
      match readNumUpTo2 1 12 r1 with
      | none => none
      | some (mo, r2) =>
        match expectChar '-' r2 with
        | none => none
        | some r3 =>
          match readNumUpTo2 1 31 r3 with
          | none => none
          | some (d, r4) =>
            match expectChar ' ' r4 with
            | none => none
            | some r5 =>
              match readNumUpTo2 0 23 r5 with
              | none => none
              | some (h, r6) =>
                match expectChar ':' r6 with
                | none => none
                | some r7 =>
                  match readNumUpTo2 0 59 r7 with
                  | none => none
                  | some (mi, r8) =>
                    match expectChar ':' r8 with
                    | none => none
                    | some r9 =>
                      match readNumUpTo2 0 59 r9 with
                      | none => none
                      | some (se, r10) =>
                        match expectChar ' ' r10 with
                        | none => none
                        | some r11 =>
                          if lowerList r11 = ("utc").data ∨ lowerList r11 = ("gmt").data then
                            some ⟨digitsToNat py.1, mo, d, h, mi, se⟩
                          else none

/-! ### Metadata Embedder (`embed_gps_jpg` / `embed_gps_mp4`, src/main.py:64-144)

Both embedders first return if `lat` or `lon` is `None`; then convert a
string timestamp with `strptime` — *before* entering the `try` block, so
a `ValueError` escapes; then perform the actual embedding inside
`try/except` (any failure is caught and reported as a warning, leaving
the file content unchanged).  File content is abstracted as a `Nat`;
`tagged`/`remuxed` give the new content a successful embedding writes
(for mp4 via a temp sibling then `os.replace`, so the original is either
fully replaced or untouched). -/

/-- `True` iff the `isinstance(timestamp, str)` conversion before the
`try` completes: the timestamp is absent or parses.  `False` iff it is
present and unparsable (`strptime` raises `ValueError`). -/
def timestampParses : Option String → Bool
  | some ts => (strptime_ymd_hms_z ts).isSome
  | none => true

/-- The `try` block of `embed_gps_mp4`: ffmpeg writes a temp copy, then
`os.replace` swaps it in; any failure is caught, leaving the original. -/
def embedMp4Try (ffmpegOk replaceOk : Bool) (content : Nat) (remuxed : Nat → Nat) :
    Nat × Bool :=
  if ffmpegOk = true ∧ replaceOk = true then (remuxed content, true)
  else (content, false)

def embed_gps_mp4 (lat lon : Option ℚ) (timestamp : Option String)
    (ffmpegOk replaceOk : Bool) (content : Nat) (remuxed : Nat → Nat) :
    Except Unit (Nat × Bool) :=
  if lat = none ∨ lon = none then .ok (content, false)
  else if timestampParses timestamp = true then
    .ok (embedMp4Try ffmpegOk replaceOk content remuxed)
  else .error ()

/-- The `try` block of `embed_gps_jpg`: `piexif.insert` rewrites the file
in place on success; any failure is caught, leaving the file as it was. -/
def embedJpgTry (insertOk : Bool) (content : Nat) (tagged : Nat → Nat) :
    Nat × Bool :=
  if insertOk = true then (tagged content, true) else (content, false)

def embed_gps_jpg (lat lon : Option ℚ) (timestamp : Option String)
    (insertOk : Bool) (content : Nat) (tagged : Nat → Nat) :
    Except Unit (Nat × Bool) :=
  if lat = none ∨ lon = none then .ok (content, false)
  else if timestampParses timestamp = true then
    .ok (embedJpgTry insertOk content tagged)
  else .error ()

/-- `.lower().endswith((".jpg", ".jpeg"))` on an output path. -/
def isJpgPath (p : String) : Bool :=
  pyEndsWith (pyLower p) ".jpg" || pyEndsWith (pyLower p) ".jpeg"

/-- `.lower().endswith(".mp4")` on an output path. -/
def isMp4Path (p : String) : Bool := pyEndsWith (pyLower p) ".mp4"

/-- The embedding stage of `process_json` for one entry
(src/main.py:354-368): parse the location, and only if the output path
is present, has the matching extension, and both coordinates parsed, call
the embedder inside `try/except` (so an escaping embedder exception is
caught here and the stage never raises).  Returns the file content after
the stage and whether an embedder was invoked. -/
def embedStage (loc : String) (outPath : Option String) (ts : Option String)
    (insertOk ffmpegOk replaceOk : Bool) (content : Nat)
    (tagged remuxed : Nat → Nat) : Nat × Bool :=
  let ll := parse_latlon loc
  let stJpg : Nat × Bool :=
    if (match outPath with | some p => isJpgPath p | none => false) = true
        ∧ ll.1 ≠ none ∧ ll.2 ≠ none then
      match embed_gps_jpg ll.1 ll.2 ts insertOk content tagged with
      | .ok (c, _) => (c, true)
      | .error _ => (content, true)
    else (content, false)
  let stMp4 : Nat × Bool :=
    if (match outPath with | some p => isMp4Path p | none => false) = true
        ∧ ll.1 ≠ none ∧ ll.2 ≠ none then
      match embed_gps_mp4 ll.1 ll.2 ts ffmpegOk replaceOk stJpg.1 remuxed with
      | .ok (c, _) => (c, true)
      | .error _ => (stJpg.1, true)
    else (stJpg.1, false)
  (stMp4.1, stJpg.2 || stMp4.2)

/-! ### Batch loop of `process_json` (src/main.py:285-377)

Per manifest entry the loop: resolves a media URL (skipping the entry if
absent), downloads (a failure is caught: `continue`), runs the
zip/companion-overlay block inside `try` (a failure is caught with
`output_path = saved_path`), then — *outside any try* — reads the Date
field and calls `.replace` on it (raising `AttributeError` when both
`"Date"` and `"date"` are missing), and finally renames the output with
`os.rename`, also outside any try.  The embed calls in between are each
wrapped in `try` and cannot abort the loop.  Per-entry I/O outcomes are
oracle fields of `EntryRun`. -/

inductive PyErr
  | noneReplace
  | renameFailed
deriving DecidableEq, Repr

structure EntryRun where
  hasUrl : Bool
  downloadOk : Bool
  mergeRaises : Bool
  mergeOutputSome : Bool
  date : Option String
  renameOk : Bool

/-- The body of the per-entry loop, from `media_url = ...` to the final
rename. -/
def processEntry (e : EntryRun) : Except PyErr Unit :=
  if !e.hasUrl then .ok ()
  else if !e.downloadOk then .ok ()
  else
    let outputSome := if e.mergeRaises then true else e.mergeOutputSome
    match e.date with
    | none => .error .noneReplace
    | some ts =>
      if outputSome ∧ nicetime ts ≠ "" then
        if e.renameOk then .ok () else .error .renameFailed
      else .ok ()

/-- The batch loop: how many entries were fully iterated before the loop
ended, and the exception aborting it, if any. -/
def process_json_loop : List EntryRun → Nat × Option PyErr
  | [] => (0, none)
  | e :: rest =>
    match processEntry e with
    | .error err => (0, some err)
    | .ok _ =>
      let r := process_json_loop rest
      (r.1 + 1, r.2)

/-- An entry whose every stage succeeds. -/
def entryAllOk : EntryRun := ⟨true, true, false, true, some "d", true⟩

/-- An entry with a media URL and successful download whose `Date` (and
`date`) field is absent. -/
def entryNoDate : EntryRun := ⟨true, true, false, true, none, true⟩

/-! ### Reconciliation Sweep (`FindInJSON` / `FixRemaining`, src/main.py:394-454)

`FindInJSON` scans the manifest for the first entry one of whose string
fields contains the search string case-insensitively, returning `None`
when the loop falls through.  `FixRemaining` iterates the leftover
`_extracted` directories: missing main/overlay means `continue`; the
compose step raising escapes the loop; then
`entry = FindInJSON(...)` followed by `entry.get("Date")` — with
`entry = None` this raises `AttributeError`, *not* inside any `try`,
aborting the whole sweep.  The embed calls are each inside `try`;
deletion (`shutil.rmtree`, when `noDelete` is false) is last.  A leftover
directory is modelled by its `Path.stem` plus oracles for
`find_main_and_overlay` and the compose step. -/

inductive JField
  | str (s : String)
  | other

/-- `isinstance(v, str) and search_str.lower() in v.lower()` for one
field of an entry. -/
def entryFieldMatches (search : String) (kv : String × JField) : Bool :=
  match kv.2 with
  | .str v => pyInStr (pyLower search) (pyLower v)
  | .other => false

def FindInJSON : List (List (String × JField)) → String → Option (List (String × JField))
  | [], _ => none
  | e :: rest, search =>
    if e.any (entryFieldMatches search) then some e
    else FindInJSON rest search

structure SweepDir where
  stem : String
  hasMain : Option MainKind
  hasOverlay : Bool
  composeRaises : Bool

inductive SweepAbort
  | composeFail
  | noneGet
deriving DecidableEq, Repr

/-- `subdir.stem.replace("_extracted", "")`. -/
def stripExtracted (stem : String) : String := pyReplace stem "_extracted" ""

/-- One iteration of the `FixRemaining` loop body for leftover directory
`d`: `.ok (processed, deleted)` if the iteration completes (`continue`
counts as completing with nothing processed and nothing deleted),
`.error` if an exception escapes the body, aborting the sweep. -/
def sweepStep (entries : List (List (String × JField))) (noDelete : Bool) (d : SweepDir) :
    Except SweepAbort (Bool × Bool) :=
  if d.hasMain = none ∨ d.hasOverlay = false then .ok (false, false)
  else if d.composeRaises = true then .error .composeFail
  else
    match FindInJSON entries (stripExtracted d.stem) with
    | none => .error .noneGet
    | some _ => .ok (true, !noDelete)

/-- `FixRemaining` over the leftover directories: the stems processed to
completion, the stems whose directories were deleted, and the abort that
ended the sweep early, if any. -/
def FixRemaining (entries : List (List (String × JField))) (noDelete : Bool) :
    List SweepDir → List String × List String × Option SweepAbort
  | [] => ([], [], none)
  | d :: rest =>
    match sweepStep entries noDelete d with
    | .error a => ([], [], some a)
    | .ok pd =>
      let r := FixRemaining entries noDelete rest
      ((if pd.1 then [d.stem] else []) ++ r.1,
       (if pd.2 then [d.stem] else []) ++ r.2.1, r.2.2)

/-! ## Theorems -/

/-! ### Length lemmas for `replaceList` -/

theorem replaceList_length_le (pat rep : List Char) (hlen : pat.length ≤ rep.length) :
    ∀ l : List Char, l.length ≤ (replaceList pat rep l).length := by
  intro l
  induction l using replaceList.induct pat rep with
  | case1 => simp [replaceList]
  | case2 c rest h ih =>
    rw [replaceList]
    simp only [if_pos h]
    have hpre := h.1
    have hne := h.2
    have hp : pat.length ≤ (c :: rest).length :=
      List.IsPrefix.length_le (List.isPrefixOf_iff_prefix.mp hpre)
    have hd : (rest.drop (pat.length - 1)).length = rest.length - (pat.length - 1) :=
      List.length_drop _ _
    simp only [List.length_append, List.length_cons] at *
    have hne' : 0 < pat.length := List.length_pos.mpr hne
    omega
  | case3 c rest h ih =>
    rw [replaceList]
    simp only [if_neg h, List.length_cons]
    omega

theorem replaceList_length_lt (pat rep : List Char) (hlen : pat.length < rep.length)
    (hne : pat ≠ []) :
    ∀ l : List Char, containsSub pat l = true → l.length < (replaceList pat rep l).length := by
  intro l
  induction l using replaceList.induct pat rep with
  | case1 =>
    intro hc
    simp [containsSub, List.isPrefixOf_iff_prefix] at hc
    exact absurd hc hne
  | case2 c rest h ih =>
    intro _
    rw [replaceList]
    simp only [if_pos h]
    have hpre := h.1
    have hp : pat.length ≤ (c :: rest).length :=
      List.IsPrefix.length_le (List.isPrefixOf_iff_prefix.mp hpre)
    have hd := replaceList_length_le pat rep (Nat.le_of_lt hlen) (rest.drop (pat.length - 1))
    have hd2 : (rest.drop (pat.length - 1)).length = rest.length - (pat.length - 1) :=
      List.length_drop _ _
    have hne' : 0 < pat.length := List.length_pos.mpr hne
    simp only [List.length_append, List.length_cons] at *
    omega
  | case3 c rest h ih =>
    intro hc
    rw [replaceList]
    simp only [if_neg h, List.length_cons]
    rw [containsSub] at hc
    rcases Bool.or_eq_true _ _ |>.mp hc with h1 | h2
    · exact absurd ⟨h1, hne⟩ h
    · exact Nat.succ_lt_succ (ih h2)

theorem containsSub_append_left (pat r : List Char) (h : containsSub pat r = true) :
    ∀ l : List Char, containsSub pat (l ++ r) = true := by
  intro l
  induction l with
  | nil => simpa using h
  | cons a l ih =>
    rw [List.cons_append, containsSub]
    exact Bool.or_eq_true _ _ |>.mpr (Or.inr ih)

theorem contains_png_of_overlay_suffix (l : List Char)
    (h : ("-overlay.png").data.isSuffixOf l = true) :
    containsSub (".png").data l = true := by
  rw [List.isSuffixOf_iff_suffix] at h
  obtain ⟨t, ht⟩ := h
  subst ht
  exact containsSub_append_left _ _ (by decide) t

/-! ### C1 — the Video Compositor retry bound (code bug) -/

/-- C1 (code bug): the loop counter `x` of `ffmpeg_overlay_video` is
never incremented, so on an input whose every compose attempt fails the
loop never exits: for every fuel bound the loop is still running, having
repaired and substituted the overlay after each failed attempt.  The
claimed behaviour — terminate after exactly 3 attempts — never occurs. -/
theorem C1_retry_loop_never_terminates (runOk : Nat → String → Bool)
    (h : ∀ k ov, runOk k ov = false) :
    ∀ (fuel : Nat) (ov : String), ffmpeg_overlay_video runOk ov fuel = none := by
  have main : ∀ fuel x ov k, x < 3 → ffmpegOverlayVideoLoop runOk fuel x ov k = none := by
    intro fuel
    induction fuel with
    | zero => intro x ov k _; rfl
    | succ n ih =>
      intro x ov k hx
      rw [ffmpegOverlayVideoLoop, if_pos hx, h k ov]
      simp only [Bool.false_eq_true, if_false]
      exact ih x _ (k + 1) hx
  intro fuel ov
  exact main fuel 0 ov 0 (by omega)

/-- C1 witness: with the always-failing compose oracle, the loop is
still running after 1000 iterations. -/
theorem C1_retry_loop_never_terminates_witness :
    ffmpeg_overlay_video (fun _ _ => false) "a-overlay.png" 1000 = none :=
  C1_retry_loop_never_terminates (fun _ _ => false) (fun _ _ => rfl) 1000 "a-overlay.png"

/-! ### C2 — batch isolation in `process_json` -/

/-- C2 counterexample: in a 3-entry batch whose middle entry downloads
fine but has no `Date` field, the `timestamp.replace` call raises
`AttributeError` outside any `try`, aborting the loop after only the
first entry; the third entry is never processed.  This falsifies the
claim that every per-entry failure is caught inside the loop. -/
theorem C2_missing_date_aborts_batch :
    process_json_loop [entryAllOk, entryNoDate, entryAllOk] = (1, some .noneReplace) := by
  have h1 : nicetime "d" = "d" := by
    simp +decide [nicetime, pyReplace, replaceList]
  simp +decide [process_json_loop, processEntry, entryAllOk, entryNoDate, h1]

theorem processEntry_ok (e : EntryRun) (hd : e.date.isSome = true)
    (hr : e.renameOk = true) : processEntry e = .ok () := by
  rcases Option.isSome_iff_exists.mp hd with ⟨ts, hts⟩
  simp only [processEntry, hts, hr]
  split_ifs <;> rfl

/-- C2 (amended): failures in the URL-resolution, download and
merge stages are caught inside the per-entry loop and the batch continues
through every entry; but the Date read and the final rename are outside
any `try`, so batch isolation holds only for entries whose `Date` field
is present and whose rename succeeds. -/
theorem C2_batch_isolation_amended (l : List EntryRun)
    (h : ∀ e ∈ l, e.date.isSome = true ∧ e.renameOk = true) :
    process_json_loop l = (l.length, none) := by
  induction l with
  | nil => rfl
  | cons e rest ih =>
    have he := h e (List.mem_cons_self e rest)
    rw [process_json_loop, processEntry_ok e he.1 he.2,
      ih (fun x hx => h x (List.mem_cons_of_mem e hx))]
    rfl

/-- C2 witness: a batch with a failed download, a missing URL, and a
merge-stage exception — all with `Date` present and rename fine — runs
to completion over all 3 entries. -/
theorem C2_batch_isolation_amended_witness :
    process_json_loop [⟨true, false, false, true, some "d", true⟩,
      ⟨false, true, true, true, some "d", true⟩,
      ⟨true, true, true, false, some "d", true⟩] = (3, none) :=
  C2_batch_isolation_amended _ (by decide)

/-! ### C3 — Overlay Repair output path -/

/-- C3 (amended): for every overlay path ending in the exact lowercase
suffix `"-overlay.png"`, `FixOverlayImage` writes to, and returns, a path
different from its input, so the file at the input path is left
unmodified (the save at the returned path is its only write). -/
theorem C3_overlay_repair_new_path (p : String)
    (h : ("-overlay.png").data.isSuffixOf p.data = true) :
    fixOverlayImagePath p ≠ p := by
  intro heq
  have hlt := replaceList_length_lt (".png").data ("_fixed.png").data
    (by decide) (by decide) p.data (contains_png_of_overlay_suffix _ h)
  have hdata : (fixOverlayImagePath p).data = p.data := congrArg String.data heq
  rw [fixOverlayImagePath, pyReplace] at hdata
  simp only at hdata
  rw [hdata] at hlt
  exact Nat.lt_irrefl _ hlt

/-- C3 witness: the amended theorem applied at the concrete accepted
overlay path `"a-overlay.png"`. -/
theorem C3_overlay_repair_new_path_witness :
    fixOverlayImagePath "a-overlay.png" ≠ "a-overlay.png" :=
  C3_overlay_repair_new_path "a-overlay.png" (by decide)

/-- C3 counterexample: `"a-overlay.PNG"` is accepted by the pipeline's
case-insensitive overlay test, yet `FixOverlayImage` returns exactly its
input path (the case-sensitive `.replace(".png", "_fixed.png")` finds no
occurrence), so the re-encoded image is saved over the input file. -/
theorem C3_uppercase_overlay_same_path :
    isOverlayName "a-overlay.PNG" = true ∧
      fixOverlayImagePath "a-overlay.PNG" = "a-overlay.PNG" := by
  constructor
  · decide
  · simp +decide [fixOverlayImagePath, pyReplace, replaceList]

/-! ### C4 — archive deletion in `process_zip_file` -/

/-- C4 counterexample: when `extract_zip` raises, `process_zip_file`
propagates the exception before reaching `os.remove(zip_path)`, so it
finishes (exceptionally) with the archive file still present — against
the claim that the archive is deleted regardless of extraction outcome. -/
theorem C4_archive_survives_failed_extraction :
    process_zip_file false (some .image) true false = (.error (), false) := rfl

/-- C4 (amended): the archive file is deleted exactly when extraction
succeeds; after a successful extraction it is deleted regardless of the
payload scan and compose outcomes (even when they fail), while an
extraction failure leaves the archive in place. -/
theorem C4_archive_deleted_iff_extracted (extractOk : Bool) (main : Option MainKind)
    (overlay composeRaises : Bool) :
    (process_zip_file extractOk main overlay composeRaises).2 = extractOk := by
  cases extractOk
  · rfl
  · rw [process_zip_file, if_neg (by decide)]
    split_ifs <;> rfl

/-! ### C5 — best-effort video metadata embedding -/

/-- C5 counterexample: with both coordinates present and the unparsable
timestamp string `"garbage"`, `embed_gps_mp4` raises (`ValueError` from
the `strptime` call placed before the `try` block) instead of catching
the failure internally and warning. -/
theorem C5_bad_timestamp_raises :
    embed_gps_mp4 (some 1) (some 2) (some "garbage") true true 0 (fun n => n + 1)
      = .error () := rfl

/-- C5 (amended): when the timestamp is absent or parses as
`"%Y-%m-%d %H:%M:%S %Z"`, `embed_gps_mp4` never raises: it returns with
the file either atomically replaced by the metadata-updated copy
(temp-then-`os.replace`) or — on any caught ffmpeg/replace failure —
byte-identical to the original.  A present-but-unparsable timestamp
instead raises out of the function (its caller in `process_json` catches
it). -/
theorem C5_embed_mp4_best_effort (lat lon : Option ℚ) (ts : Option String)
    (ffmpegOk replaceOk : Bool) (content : Nat) (remuxed : Nat → Nat)
    (hts : timestampParses ts = true) :
    ∃ c upd, embed_gps_mp4 lat lon ts ffmpegOk replaceOk content remuxed = .ok (c, upd)
      ∧ (upd = true → c = remuxed content)
      ∧ (upd = false → c = content)
      ∧ (¬(ffmpegOk = true ∧ replaceOk = true) → upd = false) := by
  by_cases hl : lat = none ∨ lon = none
  · exact ⟨content, false, by rw [embed_gps_mp4, if_pos hl], by simp, fun _ => rfl, fun _ => rfl⟩
  · rw [embed_gps_mp4, if_neg hl, if_pos hts]
    by_cases hfr : ffmpegOk = true ∧ replaceOk = true
    · exact ⟨remuxed content, true, by rw [embedMp4Try, if_pos hfr], fun _ => rfl, by simp,
        fun h => absurd hfr h⟩
    · exact ⟨content, false, by rw [embedMp4Try, if_neg hfr], by simp, fun _ => rfl, fun _ => rfl⟩

/-- C5 witness: the amended theorem at a parsing timestamp with a failed
ffmpeg run — no exception, and the content 7 is preserved. -/
theorem C5_embed_mp4_best_effort_witness :
    ∃ c upd, embed_gps_mp4 (some 1) (some 2) (some "2021-10-06 23:09:21 UTC")
        false true 7 (fun n => n + 1) = .ok (c, upd)
      ∧ (upd = true → c = 8)
      ∧ (upd = false → c = 7)
      ∧ (¬(false = true ∧ true = true) → upd = false) :=
  C5_embed_mp4_best_effort (some 1) (some 2) (some "2021-10-06 23:09:21 UTC") false true 7
    (fun n => n + 1) (by decide)

/-! ### C6 — embedding is a no-op without a location -/

/-- C6: if `lat` or `lon` is `None`, both embedders return immediately
with the file content untouched (the check precedes even the timestamp
conversion); and the orchestrator's embedding stage, given an entry whose
location string has no parsable coordinate pair, invokes neither embedder
and leaves the output file's content unchanged. -/
theorem C6_embed_noop_without_location :
    (∀ (lat lon : Option ℚ) (ts : Option String) (insertOk : Bool) (content : Nat)
        (tagged : Nat → Nat), lat = none ∨ lon = none →
        embed_gps_jpg lat lon ts insertOk content tagged = .ok (content, false)) ∧
    (∀ (lat lon : Option ℚ) (ts : Option String) (ffmpegOk replaceOk : Bool)
        (content : Nat) (remuxed : Nat → Nat), lat = none ∨ lon = none →
        embed_gps_mp4 lat lon ts ffmpegOk replaceOk content remuxed = .ok (content, false)) ∧
    (∀ (loc : String) (outPath : Option String) (ts : Option String)
        (insertOk ffmpegOk replaceOk : Bool) (content : Nat) (tagged remuxed : Nat → Nat),
        parse_latlon loc = (none, none) →
        embedStage loc outPath ts insertOk ffmpegOk replaceOk content tagged remuxed
          = (content, false)) := by
  refine ⟨fun lat lon ts insertOk content tagged hl => by rw [embed_gps_jpg, if_pos hl],
    fun lat lon ts ffmpegOk replaceOk content remuxed hl => by rw [embed_gps_mp4, if_pos hl],
    fun loc outPath ts insertOk ffmpegOk replaceOk content tagged remuxed hl => ?_⟩
  simp only [embedStage, hl]
  simp

/-- C6 witness: each conjunct of the theorem at concrete inputs — a
missing latitude, a missing longitude, and a location string with no
coordinate pair; the content 5 is unchanged and nothing is invoked. -/
theorem C6_embed_noop_without_location_witness :
    embed_gps_jpg none (some 1) (some "x") true 5 (fun n => n + 1) = .ok (5, false) ∧
    embed_gps_mp4 (some 1) none none true true 5 (fun n => n + 2) = .ok (5, false) ∧
    embedStage "no location here" (some "a_merged.jpg") (some "x") true true true 5
      (fun n => n + 1) (fun n => n + 2) = (5, false) :=
  ⟨C6_embed_noop_without_location.1 none (some 1) (some "x") true 5 (fun n => n + 1)
      (Or.inl rfl),
   C6_embed_noop_without_location.2.1 (some 1) none none true true 5 (fun n => n + 2)
      (Or.inr rfl),
   C6_embed_noop_without_location.2.2 "no location here" (some "a_merged.jpg") (some "x")
      true true true 5 (fun n => n + 1) (fun n => n + 2) (by decide)⟩

/-! ### C7 — `parse_latlon` against the claimed pattern -/

theorem matchPairAt_nil : matchPairAt ([] : List Char) = none := by decide

theorem searchPair_eq_none_iff (l : List Char) :
    searchPair l = none ↔ ∀ t ∈ l.tails, matchPairAt t = none := by
  induction l with
  | nil =>
    simp only [searchPair, show ([] : List Char).tails = [[]] from rfl,
      List.mem_singleton, true_iff]
    intro t ht
    subst ht
    exact matchPairAt_nil
  | cons c rest ih =>
    rw [searchPair]
    cases hm : matchPairAt (c :: rest) with
    | some g =>
      simp only [List.tails_cons, List.mem_cons]
      constructor
      · intro h; exact absurd h (by simp)
      · intro h
        have := h (c :: rest) (Or.inl rfl)
        rw [this] at hm
        exact absurd hm (by simp)
    | none =>
      simp only [List.tails_cons, List.mem_cons, ih]
      constructor
      · intro h t ht
        rcases ht with h1 | h2
        · subst h1; exact hm
        · exact h t h2
      · intro h t ht
        exact h t (Or.inr ht)

theorem searchPair_leftmost (l₂ g1 g2 : List Char) : ∀ l₁ : List Char,
    matchPairAt l₂ = some (g1, g2) →
    (∀ m₁ m₂ : List Char, l₁ ++ l₂ = m₁ ++ m₂ → m₁.length < l₁.length →
      matchPairAt m₂ = none) →
    searchPair (l₁ ++ l₂) = some (g1, g2) := by
  intro l₁
  induction l₁ with
  | nil =>
    intro hm _
    cases l₂ with
    | nil => rw [matchPairAt_nil] at hm; exact absurd hm (by simp)
    | cons c rest => rw [List.nil_append, searchPair, hm]
  | cons a l₁ ih =>
    intro hm hearlier
    have h0 : matchPairAt (a :: (l₁ ++ l₂)) = none :=
      hearlier [] (a :: (l₁ ++ l₂)) (by simp) (by simp)
    rw [List.cons_append, searchPair, h0]
    exact ih hm (fun m₁ m₂ heq hlt =>
      hearlier (a :: m₁) m₂ (by simp [heq]) (by simpa using Nat.succ_lt_succ hlt))

/-- C7 (amended): `parse_latlon` returns `(None, None)` exactly when the
code's pattern — float, comma, *optional whitespace*, float — matches at
no position of the string; and when a position matches while every
strictly earlier position does not, the returned pair consists of the two
captured floats of that leftmost match. -/
theorem C7_parse_latlon_leftmost (s : String) :
    (parse_latlon s = (none, none) ↔ ∀ t ∈ s.data.tails, matchPairAt t = none) ∧
    (∀ l₁ l₂ g1 g2 : List Char, s.data = l₁ ++ l₂ → matchPairAt l₂ = some (g1, g2) →
      (∀ m₁ m₂ : List Char, s.data = m₁ ++ m₂ → m₁.length < l₁.length →
        matchPairAt m₂ = none) →
      parse_latlon s = (some (pyFloat g1), some (pyFloat g2))) := by
  constructor
  · rw [parse_latlon]
    by_cases hd : s.data = []
    · rw [if_pos hd, hd]
      simp only [show ([] : List Char).tails = [[]] from rfl, List.mem_singleton, true_iff]
      intro t ht
      subst ht
      exact matchPairAt_nil
    · rw [if_neg hd]
      cases hs : searchPair s.data with
      | some g =>
        constructor
        · intro h; exact absurd h (by simp)
        · intro h
          rw [(searchPair_eq_none_iff s.data).mpr h] at hs
          exact absurd hs (by simp)
      | none =>
        simp only [← searchPair_eq_none_iff, hs, true_iff]
  · intro l₁ l₂ g1 g2 hsplit hm hearlier
    have hs : searchPair s.data = some (g1, g2) := by
      rw [hsplit]
      exact searchPair_leftmost l₂ g1 g2 l₁ hm (by rw [← hsplit]; exact hearlier)
    have hd : s.data ≠ [] := by
      intro h
      rw [h] at hs
      rw [(by rfl : searchPair ([] : List Char) = none)] at hs
      exact absurd hs (by simp)
    rw [parse_latlon, if_neg hd, hs]

/-- C7 witness: the amended theorem applied at `"1.5, 2.25"`, whose
leftmost (here: only) match starts at position 0. -/
theorem C7_parse_latlon_leftmost_witness :
    parse_latlon "1.5, 2.25" = (some ((3 : ℚ)/2), some ((9 : ℚ)/4)) := by
  have h := (C7_parse_latlon_leftmost "1.5, 2.25").2 [] ("1.5, 2.25".data)
    ['1', '.', '5'] ['2', '.', '2', '5'] rfl (by decide)
    (fun m₁ m₂ _ hlt => absurd hlt (Nat.not_lt_zero _))
  rw [h]
  have e1 : pyFloat ['1', '.', '5'] = 3/2 := by
    simp +decide [pyFloat, pyFloatPos, takeDigits, digitsToNat, isDig]
    norm_num
  have e2 : pyFloat ['2', '.', '2', '5'] = 9/4 := by
    simp +decide [pyFloat, pyFloatPos, takeDigits, digitsToNat, isDig]
    norm_num
  rw [e1, e2]

/-- C7 counterexample: `"1.5, 2.5"` contains no substring of the claim's
form `<float>,<float>` (the comma is followed by a space), so the claim
requires `(None, None)`; but the code's regex allows `,\s*`, and
`parse_latlon` returns `(1.5, 2.5)`. -/
theorem C7_space_after_comma_parses :
    claimHasPair "1.5, 2.5" = false ∧
      parse_latlon "1.5, 2.5" = (some ((3 : ℚ)/2), some ((5 : ℚ)/2)) := by
  constructor
  · decide
  · have h : searchPair ("1.5, 2.5").data = some (['1', '.', '5'], ['2', '.', '5']) := by
      decide
    rw [parse_latlon, if_neg (by decide), h]
    simp only []
    have e1 : pyFloat ['1', '.', '5'] = 3/2 := by
      simp +decide [pyFloat, pyFloatPos, takeDigits, digitsToNat, isDig]
      norm_num
    have e2 : pyFloat ['2', '.', '5'] = 5/2 := by
      simp +decide [pyFloat, pyFloatPos, takeDigits, digitsToNat, isDig]
      norm_num
    rw [e1, e2]

/-! ### C8 — the DMS round-trip bound -/

theorem pyRound_sub_abs_le (q : ℚ) : |(pyRound q : ℚ) - q| ≤ 1/2 := by
  rw [pyRound]
  have h0 : (0:ℚ) ≤ q - ⌊q⌋ := by
    have := Int.floor_le q
    linarith
  have h1 : q - ⌊q⌋ < 1 := by
    have := Int.lt_floor_add_one q
    linarith
  split_ifs with hlt hgt hev
  · rw [abs_le]
    constructor <;> linarith
  · rw [abs_le]
    constructor <;> push_cast <;> linarith
  · rw [abs_le]
    constructor <;> linarith
  · rw [abs_le]
    constructor <;> push_cast <;> linarith

/-- C8: reconstructing `deg + minutes/60 + (seconds/100)/3600` from the
tuple returned by `deg_to_dms_rational` reproduces `|d|` to within the
2-decimal-place seconds rounding error, `1/720000` of a degree. -/
theorem C8_dms_roundtrip_bound (d : ℚ) :
    |(((deg_to_dms_rational d).1.1 : ℚ)
        + ((deg_to_dms_rational d).2.1.1 : ℚ) / 60
        + (((deg_to_dms_rational d).2.2.1 : ℚ) / 100) / 3600 - |d|)| ≤ 1 / 720000 := by
  have ha : (0:ℚ) ≤ |d| := abs_nonneg d
  simp only [deg_to_dms_rational]
  have hdeg : pyInt |d| = ⌊|d|⌋ := by rw [pyInt, if_pos ha]
  rw [hdeg]
  set mf : ℚ := (|d| - ⌊|d|⌋) * 60 with hmf
  have hmf0 : (0:ℚ) ≤ mf := by
    have := Int.floor_le |d|
    rw [hmf]
    nlinarith
  have hmin : pyInt mf = ⌊mf⌋ := by rw [pyInt, if_pos hmf0]
  rw [hmin]
  set sv : ℚ := (mf - ⌊mf⌋) * 60 * 100 with hsv
  have hr := pyRound_sub_abs_le sv
  have key : ((⌊|d|⌋ : ℚ) + (⌊mf⌋ : ℚ) / 60 + ((pyRound sv : ℚ) / 100) / 3600 - |d|)
      = ((pyRound sv : ℚ) - sv) / 360000 := by
    rw [hsv, hmf]
    ring
  rw [key, abs_div, abs_of_pos (by norm_num : (0:ℚ) < 360000)]
  linarith

/-! ### C9 — filename normalization -/

/-- C9: the timestamp `"2021-10-06 23:09:21 UTC"` normalizes to
`"2021-10-06_23-09-21"` (colons to hyphens, `" UTC"` stripped, spaces to
underscores), and the output file's new name is that normalized string,
an underscore, then its previous name. -/
theorem C9_filename_normalization :
    nicetime "2021-10-06 23:09:21 UTC" = "2021-10-06_23-09-21" ∧
      ∀ name : String, renamedOutputName "2021-10-06 23:09:21 UTC" name =
        "2021-10-06_23-09-21_" ++ name := by
  have h : nicetime "2021-10-06 23:09:21 UTC" = "2021-10-06_23-09-21" := by
    simp +decide [nicetime, pyReplace, replaceList]
  refine ⟨h, fun name => ?_⟩
  rw [renamedOutputName, h]
  rfl

/-! ### C10 — an unmatched leftover directory aborts the sweep -/

theorem FindInJSON_eq_none (search : String) :
    ∀ entries : List (List (String × JField)),
    (∀ e ∈ entries, ∀ kv ∈ e, entryFieldMatches search kv = false) →
    FindInJSON entries search = none := by
  intro entries
  induction entries with
  | nil => intro _; rfl
  | cons e rest ih =>
    intro h
    rw [FindInJSON]
    have hany : e.any (entryFieldMatches search) = false := by
      rw [List.any_eq_false]
      intro kv hkv
      simp [h e (List.mem_cons_self e rest) kv hkv]
    rw [hany]
    simp only [Bool.false_eq_true, if_false]
    exact ih (fun x hx => h x (List.mem_cons_of_mem e hx))

theorem sweepStep_noneGet (entries : List (List (String × JField))) (noDelete : Bool)
    (d : SweepDir) (hmain : d.hasMain ≠ none) (hov : d.hasOverlay = true)
    (hcomp : d.composeRaises = false)
    (hfind : FindInJSON entries (stripExtracted d.stem) = none) :
    sweepStep entries noDelete d = .error .noneGet := by
  rw [sweepStep, if_neg (by simp [hmain, hov]), if_neg (by simp [hcomp]), hfind]

/-- C10: when a leftover directory has both payloads and a working
compose step, but its stripped base name occurs (case-insensitively) in
no string field of any manifest entry, `FindInJSON` returns `None`,
`entry.get("Date")` then raises `AttributeError`, and the sweep aborts:
directories after it are not processed and the directory itself is not
deleted — only the directories before it keep their processed/deleted
status. -/
theorem C10_unmatched_leftover_aborts_sweep
    (entries : List (List (String × JField))) (noDelete : Bool)
    (pre post : List SweepDir) (d : SweepDir)
    (hmain : d.hasMain ≠ none) (hov : d.hasOverlay = true)
    (hcomp : d.composeRaises = false)
    (hnomatch : ∀ e ∈ entries, ∀ kv ∈ e,
      entryFieldMatches (stripExtracted d.stem) kv = false)
    (hpre : (FixRemaining entries noDelete pre).2.2 = none) :
    FindInJSON entries (stripExtracted d.stem) = none ∧
    FixRemaining entries noDelete (pre ++ d :: post)
      = ((FixRemaining entries noDelete pre).1,
         (FixRemaining entries noDelete pre).2.1, some .noneGet) := by
  have hfind := FindInJSON_eq_none (stripExtracted d.stem) entries hnomatch
  refine ⟨hfind, ?_⟩
  have hstep := sweepStep_noneGet entries noDelete d hmain hov hcomp hfind
  induction pre with
  | nil =>
    simp only [List.nil_append, FixRemaining, hstep]
  | cons a pre ih =>
    rw [FixRemaining] at hpre
    cases ha : sweepStep entries noDelete a with
    | error b =>
      rw [ha] at hpre
      exact absurd hpre (by simp)
    | ok pd =>
      rw [ha] at hpre
      simp only [] at hpre
      have hrec := ih hpre
      rw [List.cons_append]
      simp only [FixRemaining, ha, hrec]

/-- C10 witness: a sweep over two leftover directories where the first
has no manifest match — the sweep aborts immediately, processing and
deleting nothing (in particular the second directory is untouched). -/
theorem C10_unmatched_leftover_aborts_sweep_witness :
    FindInJSON [[("Date", JField.str "2021-10-06 23:09:21 UTC")]]
      (stripExtracted "leftover1_extracted") = none ∧
    FixRemaining [[("Date", JField.str "2021-10-06 23:09:21 UTC")]] true
      ([] ++ (⟨"leftover1_extracted", some .image, true, false⟩ : SweepDir)
        :: [⟨"other_extracted", some .video, true, false⟩])
      = ([], [], some .noneGet) := by
  have hs : stripExtracted "leftover1_extracted" = "leftover1" := by
    simp +decide [stripExtracted, pyReplace, replaceList]
  exact C10_unmatched_leftover_aborts_sweep
    [[("Date", JField.str "2021-10-06 23:09:21 UTC")]] true []
    [⟨"other_extracted", some .video, true, false⟩]
    ⟨"leftover1_extracted", some .image, true, false⟩
    (by simp) rfl rfl
    (by
      intro e he kv hkv
      simp only [List.mem_singleton] at he
      subst he
      simp only [List.mem_singleton] at hkv
      subst hkv
      rw [hs]
      decide)
    rfl

end SnapDL
